import Mathlib

/-!
# LibraryAPIEndpoint: a model of `main.go`

The service keeps three PostgreSQL tables (`users`, `books`, `borrowings`) and one
package-level Go variable (`BorrowData`).  Each HTTP handler is embedded as a function
from the server state and the request body to the response and the next server state.
Requests are handled one at a time and the connection to the database never drops:
a statement fails only for a reason PostgreSQL itself gives (a constraint, a type
limit, an exhausted sequence, a statement it cannot parse).

What is abstracted:
* `borrow_date` (a wall-clock default that no handler reads) is not stored;
* the text of `err.Error()` is not reproduced, only where the error came from;
* a request body is given after lexing: either it is not a JSON value at all, or it
  is a JSON value whose object members already carry the struct field their key
  resolves to (`encoding/json` matches keys case-insensitively against the tags);
* a failed `INSERT` leaves its sequence where it was (PostgreSQL keeps the value it
  drew consumed; nothing reads a sequence but the next `INSERT`, whose id is fresh
  either way);
* statement parameters are not range-checked against `INT`: an identifier outside the
  32-bit range matches no row of a table whose ids are 32-bit, so the handler takes
  the same branch either way.
-/

namespace Library

/-! ## Go data types -/

/-- Go struct `User` (also one row of table `users`). -/
structure User where
  ID : Int
  FirstName : String
  LastName : String
deriving DecidableEq, Repr

/-- Go struct `Book` (also one row of table `books`: id, title, quantity). -/
structure Book where
  ID : Int
  BookName : String
  BookQuantity : Int
deriving DecidableEq, Repr

/-- Type of the package-level variable `BorrowData`. -/
structure BorrowData where
  UserID : Int
  BookID : Int
deriving DecidableEq, Repr

/-- One row of table `borrowings` (id, user_id, book_id). -/
structure Borrowing where
  id : Int
  user_id : Int
  book_id : Int
deriving DecidableEq, Repr

/-- A Go slice is `nil` (here `none`) until the first `append`. -/
abbrev Slice (α : Type) := Option (List α)

/-- Go `append(s, x)`. -/
def Slice.append {α : Type} (s : Slice α) (x : α) : Slice α :=
  match s with
  | none => some [x]
  | some l => some (l ++ [x])

/-- Go `len(s)`. -/
def Slice.len {α : Type} (s : Slice α) : Nat :=
  match s with
  | none => 0
  | some l => l.length

/-! ## The relational store -/

/-- Contents of the database: the three tables in storage order and the last value
handed out by each `SERIAL` sequence. -/
structure Store where
  users : List User
  books : List Book
  borrowings : List Borrowing
  users_id_seq : Int
  books_id_seq : Int
  borrowings_id_seq : Int
deriving DecidableEq, Repr

/-- Reasons for which PostgreSQL refuses a statement. -/
inductive PgError where
  | syntaxError
  | invalidByteSequence
  | valueTooLong
  | uniqueViolation
  | foreignKeyViolation
  | sequenceExhausted
  | integerOutOfRange
deriving DecidableEq, Repr

/-- Largest value of an `INT` column and of a `SERIAL` sequence. -/
def int4Max : Int := 2147483647

/-- Smallest value of an `INT` column. -/
def int4Min : Int := -2147483648

/-- Function `nextval` of a `SERIAL` sequence whose last value is `last`; sequences do not cycle. -/
def nextval (last : Int) : Except PgError Int :=
  if last < int4Max then .ok (last + 1) else .error .sequenceExhausted

/-- Assignment of a text parameter to a `VARCHAR(n)` column: a NUL character is not
valid text; an over-long value is an error unless the excess is all spaces, in which
case it is cut to `n` characters. -/
def varchar (n : Nat) (v : String) : Except PgError String :=
  if v.data.any (fun c => c == Char.ofNat 0) then .error .invalidByteSequence
  else if v.data.length ≤ n then .ok v
  else if (v.data.drop n).all (fun c => c == ' ') then .ok ⟨v.data.take n⟩
  else .error .valueTooLong

/-- The database right after the three `CREATE TABLE IF NOT EXISTS` statements have
run on an empty database. -/
def emptyDB : Store :=
  { users := [], books := [], borrowings := [],
    users_id_seq := 0, books_id_seq := 0, borrowings_id_seq := 0 }

/-! ## The SQL statements (constants of `main.go`) -/

/-- Statement `SELECT id, first_name, last_name FROM users`. -/
def GetAllUsers (s : Store) : List User := s.users

/-- Statement `SELECT id, title, quantity FROM books WHERE quantity > 0`. -/
def GetAllAvailableBooks (s : Store) : List Book :=
  s.books.filter (fun b => decide (b.BookQuantity > 0))

/-- Statement `INSERT INTO users (first_name, last_name) VALUES ($1, $2) RETURNING id`. -/
def AddUser (s : Store) (first last : String) : Except PgError (Int × Store) :=
  match varchar 50 first with
  | .error e => .error e
  | .ok f =>
    match varchar 50 last with
    | .error e => .error e
    | .ok l =>
      match nextval s.users_id_seq with
      | .error e => .error e
      | .ok i =>
        if s.users.any (fun u => u.ID == i) then .error .uniqueViolation
        else .ok (i, { s with users := s.users ++ [⟨i, f, l⟩], users_id_seq := i })

/-- Statement `INSERT INTO borrowings (user_id, book_id) VALUES ($1, $2)`: `id` is the primary
key, the two other columns are foreign keys. -/
def BorrowBook (s : Store) (user_id book_id : Int) : Except PgError Store :=
  match nextval s.borrowings_id_seq with
  | .error e => .error e
  | .ok i =>
      if s.borrowings.any (fun r => r.id == i) then .error .uniqueViolation
      else if s.users.any (fun u => u.ID == user_id) &&
          s.books.any (fun b => b.ID == book_id) then
        .ok { s with borrowings := s.borrowings ++ [⟨i, user_id, book_id⟩],
                     borrowings_id_seq := i }
      else .error .foreignKeyViolation

/-- Statement `SELECT quantity FROM books WHERE id = $1` read with `QueryRow(...).Scan`:
the first matching row, an error (`none`) when there is none. -/
def GetBookQuantity (s : Store) (book_id : Int) : Option Int :=
  (s.books.find? (fun b => b.ID == book_id)).map (fun b => b.BookQuantity)

/-- Statement `UPDATE books SET quantity = quantity + d WHERE id = $1`; the statement fails as a
whole when a new quantity leaves the `INT` range. -/
def updateBookQty (d : Int) (s : Store) (book_id : Int) : Except PgError Store :=
  if s.books.all (fun b => b.ID != book_id ||
      (decide (int4Min ≤ b.BookQuantity + d) && decide (b.BookQuantity + d ≤ int4Max))) then
    .ok { s with books := s.books.map (fun b =>
            if b.ID == book_id then { b with BookQuantity := b.BookQuantity + d } else b) }
  else .error .integerOutOfRange

/-- Statement `UPDATE books SET quantity = quantity - 1 WHERE id = $1`. -/
def DecreaseBookQty (s : Store) (book_id : Int) : Except PgError Store :=
  updateBookQty (-1) s book_id

/-- Text of a statement `DELETE FROM borrowings WHERE user_id = $1 AND book_id = $2`,
with the `LIMIT n` that may follow it. -/
structure DeleteBorrowings where
  limit : Option Nat
deriving DecidableEq, Repr

/-- PostgreSQL running a `DeleteBorrowings` statement (the driver is `lib/pq`, the URL
`postgres://`), giving the number of rows affected.  The grammar of `DELETE` in
PostgreSQL has no `LIMIT` clause: a statement that carries one is rejected with a
syntax error when the server parses it, whatever the parameters and the table hold.
Without the clause every matching row is deleted. -/
def pgDelete (stmt : DeleteBorrowings) (s : Store) (user_id book_id : Int) :
    Except PgError (Nat × Store) :=
  match stmt.limit with
  | some _ => .error .syntaxError
  | none =>
      .ok ((s.borrowings.filter
              (fun r => r.user_id == user_id && r.book_id == book_id)).length,
        { s with borrowings :=
            s.borrowings.filter (fun r => !(r.user_id == user_id && r.book_id == book_id)) })

/-- Statement `DELETE FROM borrowings WHERE user_id = $1 AND book_id = $2 LIMIT 1`. -/
def ReturnBook : DeleteBorrowings := { limit := some 1 }

/-- Statement `UPDATE books SET quantity = quantity + 1 WHERE id = $1`. -/
def IncreaseBookQty (s : Store) (book_id : Int) : Except PgError Store :=
  updateBookQty 1 s book_id

/-- The `VALUES` list of `AddBooksIfNotExist`. -/
def new_books : List (String × Int) :=
  [("The Great Gatsby", 5), ("1984", 3), ("To Kill a Mockingbird", 7),
   ("The Catcher in the Rye", 0), ("Pride and Prejudice", 10)]

/-- Insertion of one seeded title with a generated id. -/
def insertBook (s : Store) (nb : String × Int) : Except PgError Store :=
  match nextval s.books_id_seq with
  | .error e => .error e
  | .ok i =>
      if s.books.any (fun b => b.ID == i) then .error .uniqueViolation
      else .ok { s with books := s.books ++ [⟨i, nb.1, nb.2⟩], books_id_seq := i }

/-- Statement `AddBooksIfNotExist`: insert every listed title that no row of `books` has yet.
`initDB` ignores the result of the statement, so a failure leaves the table as it was. -/
def AddBooksIfNotExist (s : Store) : Store :=
  match (new_books.filter (fun nb => !(s.books.any (fun b => b.BookName == nb.1)))).foldlM
      insertBook s with
  | .ok s1 => s1
  | .error _ => s

/-- Function `initDB` on a database whose tables exist: the seed statement. -/
def initDB (s : Store) : Store := AddBooksIfNotExist s

/-! ## Request bodies and `json.Decoder.Decode` -/

/-- A JSON value as a struct field sees it: `int` is a number literal written as an
integer, `number` any other number literal; the contents of arrays and objects do not
matter to a scalar field. -/
inductive JVal where
  | null
  | bool (b : Bool)
  | int (n : Int)
  | number
  | str (v : String)
  | array
  | object
deriving DecidableEq, Repr

/-- A request body as read by `Decode` into a struct with fields `F`.
`invalid`: empty, or not a syntactically valid JSON value (the decoder reads the whole
value before it touches the target).  `nonObject`: a top-level boolean, number, string
or array.  `object`: the members in textual order, each with the field its key
resolves to (`none` for a key that names no field). -/
inductive Body (F : Type) where
  | invalid
  | null
  | nonObject
  | object (members : List (Option F × JVal))
deriving Repr

/-- Fields of `User` by JSON tag. -/
inductive UserField where
  | id
  | first_name
  | last_name
deriving DecidableEq, Repr

/-- Fields of `BorrowData` by JSON tag. -/
inductive BorrowField where
  | user_id
  | book_id
deriving DecidableEq, Repr

/-- Store a JSON value into a Go `int` (64-bit): `null` leaves the field alone, an
integer literal in range is stored, anything else is an `UnmarshalTypeError` that
leaves the field alone.  The flag tells whether an error was recorded. -/
def storeInt (cur : Int) : JVal → Int × Bool
  | .null => (cur, false)
  | .int n => if -9223372036854775808 ≤ n ∧ n ≤ 9223372036854775807 then (n, false)
              else (cur, true)
  | _ => (cur, true)

/-- Store a JSON value into a Go `string`. -/
def storeString (cur : String) : JVal → String × Bool
  | .null => (cur, false)
  | .str v => (v, false)
  | _ => (cur, true)

/-- One object member decoded into `BorrowData`; a type error is recorded and decoding
goes on with the next member. -/
def BorrowData.setMember (acc : BorrowData × Bool) (m : Option BorrowField × JVal) :
    BorrowData × Bool :=
  match m.1 with
  | none => acc
  | some .user_id =>
      ({ acc.1 with UserID := (storeInt acc.1.UserID m.2).1 },
        acc.2 || (storeInt acc.1.UserID m.2).2)
  | some .book_id =>
      ({ acc.1 with BookID := (storeInt acc.1.BookID m.2).1 },
        acc.2 || (storeInt acc.1.BookID m.2).2)

/-- Call `json.NewDecoder(request.Body).Decode(&BorrowData)`: the value of the variable
afterwards and whether `err != nil`. -/
def decodeBorrowData (cur : BorrowData) : Body BorrowField → BorrowData × Bool
  | .invalid => (cur, true)
  | .null => (cur, false)
  | .nonObject => (cur, true)
  | .object members => members.foldl BorrowData.setMember (cur, false)

/-- One object member decoded into a `User`. -/
def User.setMember (acc : User × Bool) (m : Option UserField × JVal) : User × Bool :=
  match m.1 with
  | none => acc
  | some .id =>
      ({ acc.1 with ID := (storeInt acc.1.ID m.2).1 }, acc.2 || (storeInt acc.1.ID m.2).2)
  | some .first_name =>
      ({ acc.1 with FirstName := (storeString acc.1.FirstName m.2).1 },
        acc.2 || (storeString acc.1.FirstName m.2).2)
  | some .last_name =>
      ({ acc.1 with LastName := (storeString acc.1.LastName m.2).1 },
        acc.2 || (storeString acc.1.LastName m.2).2)

/-- Call `json.NewDecoder(request.Body).Decode(&usr)`. -/
def decodeUser (cur : User) : Body UserField → User × Bool
  | .invalid => (cur, true)
  | .null => (cur, false)
  | .nonObject => (cur, true)
  | .object members => members.foldl User.setMember (cur, false)

/-- Read a field of `BorrowData` by its JSON tag. -/
def BorrowData.get (d : BorrowData) : BorrowField → Int
  | .user_id => d.UserID
  | .book_id => d.BookID

/-! ## Responses -/

/-- Where the text of an `err.Error()` comes from. -/
inductive Failure where
  | decode
  | storage (e : PgError)
deriving DecidableEq, Repr

/-- What a handler writes as the body. `message` and `errorText` are `http.Error`
with a literal and with `err.Error()`; the others are `json.NewEncoder(writer).Encode`
of a nil slice (`null`), of a slice (`users`, `books`: a JSON array), of a `User`, and
of a one-entry map with key `status`. -/
inductive Payload where
  | message (text : String)
  | errorText (e : Failure)
  | null
  | users (us : List User)
  | books (bs : List Book)
  | user (u : User)
  | status (v : String)
deriving DecidableEq, Repr

/-- HTTP response: status code and body. -/
structure Response where
  status : Nat
  body : Payload
deriving DecidableEq, Repr

/-- Call `Encode(usrs)` for a `[]User`. -/
def encodeUsers : Slice User → Payload
  | none => .null
  | some l => .users l

/-- Call `Encode(books)` for a `[]Book`. -/
def encodeBooks : Slice Book → Payload
  | none => .null
  | some l => .books l

/-! ## The server and its five handlers -/

/-- State that outlives a request: the database and the package-level `BorrowData`. -/
structure Server where
  store : Store
  borrowData : BorrowData
deriving DecidableEq, Repr

/-- Handler `displayUser`. -/
def displayUser (sv : Server) : Response × Server :=
  let usrs : Slice User := (GetAllUsers sv.store).foldl (fun acc usr => acc.append usr) none
  (⟨200, encodeUsers usrs⟩, sv)

/-- Handler `displayAwaliableBooks`. -/
def displayAwaliableBooks (sv : Server) : Response × Server :=
  let books : Slice Book := (GetAllAvailableBooks sv.store).foldl
    (fun acc book => if book.BookQuantity > 0 then acc.append book else acc) none
  if books.len == 0 then (⟨409, .message "No books are available"⟩, sv)
  else (⟨200, encodeBooks books⟩, sv)

/-- Handler `addUser`; `usr` starts as the zero value of `User`. -/
def addUser (sv : Server) (body : Body UserField) : Response × Server :=
  let d := decodeUser ⟨0, "", ""⟩ body
  if d.2 then (⟨400, .errorText .decode⟩, sv)
  else
    match AddUser sv.store d.1.FirstName d.1.LastName with
    | .error e => (⟨500, .errorText (.storage e)⟩, sv)
    | .ok (id, s1) => (⟨201, .user { d.1 with ID := id }⟩, { sv with store := s1 })

/-- Handler `borrowBook`. -/
def borrowBook (sv : Server) (body : Body BorrowField) : Response × Server :=
  let d := decodeBorrowData sv.borrowData body
  if d.2 then (⟨400, .errorText .decode⟩, { sv with borrowData := d.1 })
  else
    match GetBookQuantity sv.store d.1.BookID with
    | none => (⟨404, .message "Book not found"⟩, { sv with borrowData := d.1 })
    | some quantity =>
      if quantity ≤ 0 then
        (⟨409, .message "Book not available"⟩, { sv with borrowData := d.1 })
      else
        match BorrowBook sv.store d.1.UserID d.1.BookID with
        | .error e => (⟨500, .errorText (.storage e)⟩, { sv with borrowData := d.1 })
        | .ok s1 =>
          match DecreaseBookQty s1 d.1.BookID with
          | .error e => (⟨500, .errorText (.storage e)⟩, ⟨s1, d.1⟩)
          | .ok s2 => (⟨200, .status "book borrowed"⟩, ⟨s2, d.1⟩)

/-- Handler `returnBook`. -/
def returnBook (sv : Server) (body : Body BorrowField) : Response × Server :=
  let d := decodeBorrowData sv.borrowData body
  if d.2 then (⟨400, .errorText .decode⟩, { sv with borrowData := d.1 })
  else
    match pgDelete ReturnBook sv.store d.1.UserID d.1.BookID with
    | .error e => (⟨500, .errorText (.storage e)⟩, { sv with borrowData := d.1 })
    | .ok (rows, s1) =>
      if rows == 0 then
        (⟨404, .message "Borrowed book not in system"⟩, ⟨s1, d.1⟩)
      else
        match IncreaseBookQty s1 d.1.BookID with
        | .error e => (⟨500, .errorText (.storage e)⟩, ⟨s1, d.1⟩)
        | .ok s2 => (⟨200, .status "book returned"⟩, ⟨s2, d.1⟩)

/-- The five endpoints registered by `main`. -/
inductive Request where
  | displayUsers
  | displayBooks
  | addUser (body : Body UserField)
  | borrowBook (body : Body BorrowField)
  | returnBook (body : Body BorrowField)

/-- Dispatch of one request by the router. -/
def handle (sv : Server) : Request → Response × Server
  | .displayUsers => displayUser sv
  | .displayBooks => displayAwaliableBooks sv
  | .addUser body => addUser sv body
  | .borrowBook body => borrowBook sv body
  | .returnBook body => returnBook sv body

/-- The server after a sequence of requests handled one at a time. -/
def run (sv : Server) (reqs : List Request) : Server :=
  reqs.foldl (fun acc r => (handle acc r).2) sv

/-- The process right after start-up on an empty database: seeded tables, `BorrowData`
at its zero value. -/
def freshServer : Server := ⟨initDB emptyDB, ⟨0, 0⟩⟩

/-- What the schema guarantees of a store: `books.id` is a primary key, `quantity` is an
`INT`, and the ids of `users` and `borrowings` were drawn from their sequences. -/
def Store.WF (s : Store) : Prop :=
  (s.books.map Book.ID).Nodup ∧
  (∀ b ∈ s.books, int4Min ≤ b.BookQuantity ∧ b.BookQuantity ≤ int4Max) ∧
  (∀ u ∈ s.users, u.ID ≤ s.users_id_seq) ∧
  (∀ r ∈ s.borrowings, r.id ≤ s.borrowings_id_seq)

instance (s : Store) : Decidable s.WF := by
  unfold Store.WF; infer_instance

/-- Number of rows of `borrowings` that reference book `book_id`. -/
def openBorrowings (s : Store) (book_id : Int) : Nat :=
  (s.borrowings.filter (fun r => r.book_id == book_id)).length

/-- The quantity bookkeeping of a store against the seed: `books` is the seeded table
with each quantity lowered by the number of borrowings that reference the book, and no
quantity is negative. -/
def QuantityInv (s : Store) : Prop :=
  s.books = freshServer.store.books.map
    (fun sb => ⟨sb.ID, sb.BookName, sb.BookQuantity - openBorrowings s sb.ID⟩) ∧
  ∀ b ∈ s.books, 0 ≤ b.BookQuantity

/-- The ids of `users` and `borrowings` were drawn from their sequences. -/
def SerialInv (s : Store) : Prop :=
  (∀ u ∈ s.users, u.ID ≤ s.users_id_seq) ∧
  (∀ r ∈ s.borrowings, r.id ≤ s.borrowings_id_seq)

/-! ## Sample requests -/

/-- Body `{"user_id": u, "book_id": b}`. -/
def borrowBody (u b : Int) : Body BorrowField :=
  .object [(some .user_id, .int u), (some .book_id, .int b)]

/-- Body `{"first_name": f, "last_name": l}`. -/
def userBody (f l : String) : Body UserField :=
  .object [(some .first_name, .str f), (some .last_name, .str l)]

/-- A name of 51 letters. -/
def longName : String := ⟨List.replicate 51 'a'⟩

/-- A name of 50 letters followed by one space. -/
def paddedName : String := ⟨List.replicate 50 'a' ++ [' ']⟩

/-- A name that holds the NUL character (JSON `"\\u0000"`). -/
def nulName : String := ⟨[Char.ofNat 0]⟩

/-- Body `{"user_id": 1, "book_id": "x"}`: valid JSON, `book_id` of the wrong type. -/
def illTypedBody : Body BorrowField :=
  .object [(some .user_id, .int 1), (some .book_id, .str "x")]

/-- Body `{"book_id": 1}`: well-formed, no `user_id`. -/
def bookOnlyBody : Body BorrowField := .object [(some .book_id, .int 1)]

/-- The fresh server after `Ada Lovelace` has been registered (she gets id 1). -/
def serverWithUser : Server := (addUser freshServer (userBody "Ada" "Lovelace")).2

/-! ## Elementary facts -/

theorem foldl_append_some {α : Type} (l acc : List α) :
    l.foldl (fun (a : Slice α) x => a.append x) (some acc) = some (acc ++ l) := by
  induction l generalizing acc with
  | nil => simp
  | cons x xs ih =>
    rw [List.foldl_cons]
    show List.foldl (fun (a : Slice α) x => a.append x) (some (acc ++ [x])) xs = _
    rw [ih]; simp

theorem foldl_append_none {α : Type} (x : α) (xs : List α) :
    (x :: xs).foldl (fun (a : Slice α) x => a.append x) none = some (x :: xs) := by
  rw [List.foldl_cons]
  show List.foldl (fun (a : Slice α) x => a.append x) (some [x]) xs = _
  rw [foldl_append_some]; simp

theorem foldl_append_if {α : Type} (p : α → Bool) (l : List α) (acc : Slice α) :
    l.foldl (fun (a : Slice α) x => if p x then a.append x else a) acc =
      (l.filter p).foldl (fun (a : Slice α) x => a.append x) acc := by
  induction l generalizing acc with
  | nil => simp
  | cons x xs ih =>
    rw [List.foldl_cons, ih]
    by_cases hx : p x <;> simp [List.filter_cons, hx]

theorem find_of_nodup (l : List Book) (bk : Book) (hpk : (l.map Book.ID).Nodup)
    (hmem : bk ∈ l) : l.find? (fun b => b.ID == bk.ID) = some bk := by
  induction l with
  | nil => simp at hmem
  | cons x xs ih =>
    rw [List.map_cons, List.nodup_cons] at hpk
    rcases List.mem_cons.1 hmem with h | h
    · subst h; simp
    · have hne : x.ID ≠ bk.ID := fun e => hpk.1 (e ▸ List.mem_map_of_mem Book.ID h)
      simp [List.find?_cons, hne, ih hpk.2 h]

theorem GetBookQuantity_of_mem (s : Store) (bk : Book) (hpk : (s.books.map Book.ID).Nodup)
    (hmem : bk ∈ s.books) : GetBookQuantity s bk.ID = some bk.BookQuantity := by
  simp [GetBookQuantity, find_of_nodup _ _ hpk hmem]

theorem BorrowBook_ok (s : Store) (u b : Int)
    (hids : ∀ r ∈ s.borrowings, r.id ≤ s.borrowings_id_seq)
    (hseq : s.borrowings_id_seq < int4Max)
    (hu : ∃ usr ∈ s.users, usr.ID = u) (hb : ∃ bk ∈ s.books, bk.ID = b) :
    BorrowBook s u b = .ok { s with
      borrowings := s.borrowings ++ [⟨s.borrowings_id_seq + 1, u, b⟩],
      borrowings_id_seq := s.borrowings_id_seq + 1 } := by
  have hfresh : ∀ r ∈ s.borrowings, ¬ r.id = s.borrowings_id_seq + 1 := by
    intro r hr e
    have := hids r hr
    omega
  obtain ⟨usr, husr, hue⟩ := hu
  obtain ⟨bk, hbk, hbe⟩ := hb
  have h1 : (s.borrowings.any fun r => r.id == s.borrowings_id_seq + 1) = false := by
    simpa [List.any_eq_false] using hfresh
  have h2 : (s.users.any fun x => x.ID == u) = true := by
    simp only [List.any_eq_true]; exact ⟨usr, husr, by simp [hue]⟩
  have h3 : (s.books.any fun x => x.ID == b) = true := by
    simp only [List.any_eq_true]; exact ⟨bk, hbk, by simp [hbe]⟩
  simp [BorrowBook, nextval, hseq, h1, h2, h3]

theorem updateBookQty_ok (d : Int) (s : Store) (b : Int)
    (h : ∀ bk ∈ s.books, bk.ID = b →
      int4Min ≤ bk.BookQuantity + d ∧ bk.BookQuantity + d ≤ int4Max) :
    updateBookQty d s b = .ok { s with books := s.books.map (fun bk =>
      if bk.ID == b then { bk with BookQuantity := bk.BookQuantity + d } else bk) } := by
  have hall : (s.books.all fun bk => bk.ID != b ||
      (decide (int4Min ≤ bk.BookQuantity + d) && decide (bk.BookQuantity + d ≤ int4Max)))
      = true := by
    simp only [List.all_eq_true]
    intro bk hbk
    by_cases e : bk.ID = b
    · simp [e, h bk hbk e]
    · simp [e]
  simp [updateBookQty, hall]

theorem map_decrement_of_nodup (l : List Book) (bk : Book) (d : Int)
    (hpk : (l.map Book.ID).Nodup) (hmem : bk ∈ l) :
    l.map (fun b => if b.ID == bk.ID then { b with BookQuantity := b.BookQuantity + d } else b)
      = l.map (fun b => if b = bk then ⟨bk.ID, bk.BookName, bk.BookQuantity + d⟩ else b) := by
  apply List.map_congr_left
  intro b hb
  by_cases e : b = bk
  · subst e; simp
  · have hne : b.ID ≠ bk.ID := fun h => e (List.inj_on_of_nodup_map hpk hb hmem h)
    simp [e, hne]

theorem find_after_update (l : List Book) (bk : Book) (d : Int)
    (hpk : (l.map Book.ID).Nodup) (hmem : bk ∈ l) :
    (l.map (fun b => if b.ID == bk.ID then { b with BookQuantity := b.BookQuantity + d }
        else b)).find? (fun b => b.ID == bk.ID)
      = some ⟨bk.ID, bk.BookName, bk.BookQuantity + d⟩ := by
  induction l with
  | nil => simp at hmem
  | cons x xs ih =>
    rw [List.map_cons, List.nodup_cons] at hpk
    rcases List.mem_cons.1 hmem with h | h
    · subst h; simp
    · have hne : x.ID ≠ bk.ID := fun e => hpk.1 (e ▸ List.mem_map_of_mem Book.ID h)
      have ih2 := ih hpk.2 h
      rw [List.map_cons, List.find?_cons_of_neg _ (by simp [hne])]
      exact ih2

theorem varchar_ok (n : Nat) (v : String) (hlen : v.length ≤ n)
    (hnul : Char.ofNat 0 ∉ v.data) : varchar n v = .ok v := by
  have h0 : (v.data.any fun c => c == Char.ofNat 0) = false := by
    rw [List.any_eq_false]
    intro c hc
    have : c ≠ Char.ofNat 0 := fun e => hnul (e ▸ hc)
    simpa using this
  have hl : v.data.length ≤ n := hlen
  unfold varchar
  rw [h0, if_neg (by simp), if_pos hl]

theorem AddUser_ok (s : Store) (f l : String)
    (hf : f.length ≤ 50) (hf0 : Char.ofNat 0 ∉ f.data)
    (hl : l.length ≤ 50) (hl0 : Char.ofNat 0 ∉ l.data)
    (hids : ∀ u ∈ s.users, u.ID ≤ s.users_id_seq) (hseq : s.users_id_seq < int4Max) :
    AddUser s f l = .ok (s.users_id_seq + 1,
      { s with users := s.users ++ [⟨s.users_id_seq + 1, f, l⟩],
               users_id_seq := s.users_id_seq + 1 }) := by
  have h1 : (s.users.any fun u => u.ID == s.users_id_seq + 1) = false := by
    rw [List.any_eq_false]
    intro u hu
    have := hids u hu
    have hne : ¬ u.ID = s.users_id_seq + 1 := by omega
    simpa using hne
  simp [AddUser, varchar_ok 50 f hf hf0, varchar_ok 50 l hl hl0, nextval, hseq, h1]

theorem foldl_setMember_get (f : BorrowField) (members : List (Option BorrowField × JVal))
    (acc : BorrowData × Bool) (homit : ∀ m ∈ members, m.1 ≠ some f) :
    (members.foldl BorrowData.setMember acc).1.get f = acc.1.get f := by
  induction members generalizing acc with
  | nil => rfl
  | cons m ms ih =>
    rw [List.foldl_cons, ih _ (fun x hx => homit x (List.mem_cons_of_mem _ hx))]
    have hm := homit m (List.mem_cons_self _ _)
    obtain ⟨k, v⟩ := m
    cases k with
    | none => rfl
    | some g =>
      cases g <;> cases f <;> first | rfl | exact absurd rfl hm

theorem setMember_same (f : BorrowField) (acc : BorrowData × Bool)
    (hrange : -9223372036854775808 ≤ acc.1.get f ∧ acc.1.get f ≤ 9223372036854775807) :
    BorrowData.setMember acc (some f, .int (acc.1.get f)) = acc := by
  obtain ⟨⟨u, b⟩, e⟩ := acc
  cases f <;> simp_all [BorrowData.setMember, BorrowData.get, storeInt]

theorem decodeBorrowData_append_same (cur : BorrowData) (f : BorrowField)
    (members : List (Option BorrowField × JVal))
    (homit : ∀ m ∈ members, m.1 ≠ some f)
    (hrange : -9223372036854775808 ≤ cur.get f ∧ cur.get f ≤ 9223372036854775807) :
    decodeBorrowData cur (.object (members ++ [(some f, .int (cur.get f))])) =
      decodeBorrowData cur (.object members) := by
  have hget := foldl_setMember_get f members (cur, false) homit
  simp only [decodeBorrowData, List.foldl_append, List.foldl_cons, List.foldl_nil]
  have h := setMember_same f (members.foldl BorrowData.setMember (cur, false))
    (by rw [hget]; exact hrange)
  rw [hget] at h
  exact h

theorem BorrowBook_inv (s s1 : Store) (u b : Int) (h : BorrowBook s u b = .ok s1) :
    s1.users = s.users ∧ s1.books = s.books ∧
    s1.borrowings = s.borrowings ++ [⟨s.borrowings_id_seq + 1, u, b⟩] := by
  unfold BorrowBook nextval at h
  split at h
  · cases h
  · rename_i i hi
    split at hi
    · cases hi
      split at h
      · cases h
      · split at h
        · cases h; exact ⟨rfl, rfl, rfl⟩
        · cases h
    · cases hi

theorem QuantityInv_of_eq (s s1 : Store) (hb : s1.books = s.books)
    (hr : s1.borrowings = s.borrowings) (h : QuantityInv s) : QuantityInv s1 := by
  unfold QuantityInv openBorrowings at *
  rw [hb, hr]
  exact h

theorem QuantityInv_nodup (s : Store) (h : QuantityInv s) : (s.books.map Book.ID).Nodup := by
  have hseed : (freshServer.store.books.map Book.ID).Nodup := by decide
  rw [h.1, List.map_map]
  exact hseed

theorem QuantityInv_le (s : Store) (h : QuantityInv s) :
    ∀ b ∈ s.books, b.BookQuantity ≤ 10 := by
  have hseed : ∀ sb ∈ freshServer.store.books, sb.BookQuantity ≤ 10 := by decide
  intro b hb
  rw [h.1, List.mem_map] at hb
  obtain ⟨sb, hsb, rfl⟩ := hb
  have := hseed sb hsb
  show sb.BookQuantity - _ ≤ 10
  omega

theorem openBorrowings_append (s s2 : Store) (r : Borrowing)
    (hr : s2.borrowings = s.borrowings ++ [r]) (id : Int) :
    openBorrowings s2 id = openBorrowings s id + (if r.book_id = id then 1 else 0) := by
  unfold openBorrowings
  rw [hr, List.filter_append, List.length_append]
  by_cases e : r.book_id = id <;> simp [List.filter_cons, e]

theorem QuantityInv_borrow (s s2 : Store) (i u b q : Int)
    (hb : s2.books = s.books.map (fun bk =>
      if bk.ID == b then { bk with BookQuantity := bk.BookQuantity + -1 } else bk))
    (hr : s2.borrowings = s.borrowings ++ [⟨i, u, b⟩])
    (hq : GetBookQuantity s b = some q) (hpos : 0 < q)
    (h : QuantityInv s) : QuantityInv s2 := by
  have hnd := QuantityInv_nodup s h
  constructor
  · rw [hb]
    conv_lhs => rw [h.1]
    rw [List.map_map]
    apply List.map_congr_left
    intro sb _
    have hcount := openBorrowings_append s s2 ⟨i, u, b⟩ hr sb.ID
    simp only [Function.comp]
    rw [hcount]
    by_cases e : sb.ID = b
    · simp only [e, beq_self_eq_true, if_true, Nat.cast_add, Nat.cast_one]
      congr 1
      omega
    · have e2 : ¬ b = sb.ID := fun x => e x.symm
      simp [e, e2]
  · intro bk hbk
    rw [hb, List.mem_map] at hbk
    obtain ⟨x, hx, rfl⟩ := hbk
    by_cases e : x.ID = b
    · simp only [GetBookQuantity, Option.map_eq_some'] at hq
      obtain ⟨y, hy, hyq⟩ := hq
      have hymem := List.mem_of_find?_eq_some hy
      have hyid : y.ID = b := by simpa using List.find?_some hy
      have hxy : x = y := List.inj_on_of_nodup_map hnd hx hymem (e.trans hyid.symm)
      subst hxy
      simp only [e, beq_self_eq_true, if_true]
      omega
    · simp only [beq_iff_eq, e, if_false]
      exact h.2 x hx

theorem returnBook_of_decoded (sv : Server) (body : Body BorrowField)
    (h : (decodeBorrowData sv.borrowData body).2 = false) :
    returnBook sv body = (⟨500, .errorText (.storage .syntaxError)⟩,
      { sv with borrowData := (decodeBorrowData sv.borrowData body).1 }) := by
  simp [returnBook, h, pgDelete, ReturnBook]

theorem borrowBook_preserves (sv : Server) (body : Body BorrowField)
    (h : QuantityInv sv.store) : QuantityInv (borrowBook sv body).2.store := by
  unfold borrowBook
  simp only []
  split
  · exact h
  · split
    · exact h
    · rename_i q hq
      split
      · exact h
      · rename_i hpos
        split
        · exact h
        · rename_i s1 hs1
          obtain ⟨-, hb1, hr1⟩ := BorrowBook_inv _ _ _ _ hs1
          have hupd := updateBookQty_ok (-1) s1
            (decodeBorrowData sv.borrowData body).1.BookID (by
              intro bk hbk _
              rw [hb1] at hbk
              have h1 := h.2 bk hbk
              have h2 := QuantityInv_le sv.store h bk hbk
              simp only [int4Min, int4Max]
              omega)
          simp only [DecreaseBookQty, hupd]
          refine QuantityInv_borrow sv.store _ _ _ _ q ?_ hr1 hq (by omega) h
          simp only [hb1]

theorem addUser_preserves (sv : Server) (body : Body UserField)
    (h : QuantityInv sv.store) : QuantityInv (addUser sv body).2.store := by
  unfold addUser
  simp only []
  split
  · exact h
  · split
    · exact h
    · rename_i id s1 hs1
      refine QuantityInv_of_eq sv.store s1 ?_ ?_ h
      all_goals
        unfold AddUser at hs1
        repeat' split at hs1
        all_goals first
          | (cases hs1; rfl)
          | cases hs1

theorem returnBook_preserves (sv : Server) (body : Body BorrowField)
    (h : QuantityInv sv.store) : QuantityInv (returnBook sv body).2.store := by
  by_cases hd : (decodeBorrowData sv.borrowData body).2 = true
  · simp only [returnBook, hd, if_true]; exact h
  · rw [returnBook_of_decoded sv body (by simpa using hd)]; exact h

theorem displayUser_state (sv : Server) : (displayUser sv).2 = sv := rfl

theorem displayAwaliableBooks_state (sv : Server) : (displayAwaliableBooks sv).2 = sv := by
  unfold displayAwaliableBooks; simp only []; split <;> rfl

theorem handle_preserves (sv : Server) (r : Request) (h : QuantityInv sv.store) :
    QuantityInv (handle sv r).2.store := by
  cases r with
  | displayUsers => simpa [handle, displayUser_state] using h
  | displayBooks => simpa [handle, displayAwaliableBooks_state] using h
  | addUser body => exact addUser_preserves sv body h
  | borrowBook body => exact borrowBook_preserves sv body h
  | returnBook body => exact returnBook_preserves sv body h

theorem run_preserves (reqs : List Request) (sv : Server) (h : QuantityInv sv.store) :
    QuantityInv (run sv reqs).store := by
  induction reqs generalizing sv with
  | nil => exact h
  | cons r rs ih => exact ih (handle sv r).2 (handle_preserves sv r h)

theorem AddUser_serial (s s1 : Store) (f l : String) (id : Int)
    (h : AddUser s f l = .ok (id, s1)) (hinv : SerialInv s) : SerialInv s1 := by
  unfold AddUser nextval at h
  repeat' split at h
  all_goals cases h
  rename_i hseq _
  split at hseq
  · cases hseq
    refine ⟨?_, hinv.2⟩
    intro u hu
    rcases List.mem_append.1 hu with hu | hu
    · have := hinv.1 u hu
      show u.ID ≤ s.users_id_seq + 1
      omega
    · simp only [List.mem_singleton] at hu
      subst hu
      exact le_refl _
  · cases hseq

theorem BorrowBook_serial (s s1 : Store) (u b : Int)
    (h : BorrowBook s u b = .ok s1) (hinv : SerialInv s) : SerialInv s1 := by
  unfold BorrowBook nextval at h
  repeat' split at h
  all_goals cases h
  rename_i hseq _ _
  split at hseq
  · cases hseq
    refine ⟨hinv.1, ?_⟩
    intro r hr
    rcases List.mem_append.1 hr with hr | hr
    · have := hinv.2 r hr
      show r.id ≤ s.borrowings_id_seq + 1
      omega
    · simp only [List.mem_singleton] at hr
      subst hr
      exact le_refl _
  · cases hseq

theorem updateBookQty_serial (d : Int) (s s1 : Store) (b : Int)
    (h : updateBookQty d s b = .ok s1) (hinv : SerialInv s) : SerialInv s1 := by
  unfold updateBookQty at h
  split at h
  · cases h; exact hinv
  · cases h

theorem handle_serial (sv : Server) (r : Request) (h : SerialInv sv.store) :
    SerialInv (handle sv r).2.store := by
  cases r with
  | displayUsers => simpa [handle, displayUser_state] using h
  | displayBooks => simpa [handle, displayAwaliableBooks_state] using h
  | addUser body =>
    simp only [handle, addUser]
    split
    · exact h
    · split
      · exact h
      · rename_i id s1 hs1
        exact AddUser_serial _ _ _ _ _ hs1 h
  | borrowBook body =>
    simp only [handle, borrowBook]
    split
    · exact h
    · split
      · exact h
      · split
        · exact h
        · split
          · exact h
          · rename_i s1 hs1
            have h1 := BorrowBook_serial _ _ _ _ hs1 h
            split
            · exact h1
            · rename_i s2 hs2
              exact updateBookQty_serial _ _ _ _ hs2 h1
  | returnBook body =>
    by_cases hd : (decodeBorrowData sv.borrowData body).2 = true
    · simp only [handle, returnBook, hd, if_true]; exact h
    · simp only [handle]
      rw [returnBook_of_decoded sv body (by simpa using hd)]; exact h

theorem run_serial (reqs : List Request) (sv : Server) (h : SerialInv sv.store) :
    SerialInv (run sv reqs).store := by
  induction reqs generalizing sv with
  | nil => exact h
  | cons r rs ih => exact ih (handle sv r).2 (handle_serial sv r h)

/-- Every store reached from the freshly seeded server satisfies the schema predicate
`Store.WF` that the statements about single requests assume. -/
theorem reachable_WF (reqs : List Request) : (run freshServer reqs).store.WF := by
  have hq : QuantityInv (run freshServer reqs).store :=
    run_preserves reqs freshServer (by unfold QuantityInv; exact ⟨by decide, by decide⟩)
  have hs : SerialInv (run freshServer reqs).store :=
    run_serial reqs freshServer (by unfold SerialInv; exact ⟨by decide, by decide⟩)
  refine ⟨QuantityInv_nodup _ hq, ?_, hs.1, hs.2⟩
  intro b hb
  have h1 := hq.2 b hb
  have h2 := QuantityInv_le _ hq b hb
  simp only [int4Min, int4Max]
  omega

/-! ## Claims -/

/-- C9 (evaluation of the code): `displayUser` answers 200 and leaves the server as it
is; when table `users` is empty the body is the JSON value `null` (the encoding of a
nil slice), not `[]`; otherwise it is the array of exactly the stored users. -/
theorem displayUser_body (sv : Server) :
    displayUser sv =
      (⟨200, if sv.store.users = [] then Payload.null else Payload.users sv.store.users⟩, sv) := by
  unfold displayUser GetAllUsers
  cases h : sv.store.users with
  | nil => simp [encodeUsers]
  | cons u us => rw [foldl_append_none]; simp [encodeUsers]

/-- C3 (evaluation of the code): on the freshly seeded server, which has no borrowing
row at all, a well-formed Return request for user 1 and book 1 is answered 500 with the
text of the storage error (PostgreSQL rejects `DELETE ... LIMIT 1`), not 404; the store
is unchanged. -/
theorem returnBook_without_borrowing_is_500 :
    freshServer.store.borrowings = [] ∧
    (returnBook freshServer (borrowBody 1 1)).1 = ⟨500, .errorText (.storage .syntaxError)⟩ ∧
    (returnBook freshServer (borrowBody 1 1)).1.status ≠ 404 ∧
    (returnBook freshServer (borrowBody 1 1)).2.store = freshServer.store := by
  have h : (decodeBorrowData freshServer.borrowData (borrowBody 1 1)).2 = false := by decide
  rw [returnBook_of_decoded _ _ h]
  refine ⟨rfl, rfl, by decide, rfl⟩

/-- C4 (evaluation of the code): user 1 borrows book 1 (quantity 5) successfully, then
returns it: the Return request is answered 500, the quantity stays 4 instead of going
back to 5 and the borrowing row of the pair is still there. -/
theorem borrow_then_return_does_not_restore :
    GetBookQuantity serverWithUser.store 1 = some 5 ∧
    (borrowBook serverWithUser (borrowBody 1 1)).1 = ⟨200, .status "book borrowed"⟩ ∧
    (returnBook (borrowBook serverWithUser (borrowBody 1 1)).2 (borrowBody 1 1)).1.status = 500 ∧
    GetBookQuantity
      (returnBook (borrowBook serverWithUser (borrowBody 1 1)).2 (borrowBody 1 1)).2.store 1
        = some 4 ∧
    (returnBook (borrowBook serverWithUser (borrowBody 1 1)).2 (borrowBody 1 1)).2.store.borrowings
        = [⟨1, 1, 1⟩] := by
  refine ⟨by decide, by decide, by decide, by decide, by decide⟩

/-- C6: `displayAwaliableBooks` never changes the server; it answers 409 with the
message "No books are available" exactly when no book has a positive quantity, and
otherwise 200 with the array of exactly the books whose quantity is positive, so a book
with quantity 0 is never listed; on the freshly seeded store the answer is the four
titles other than "The Catcher in the Rye". -/
theorem displayAwaliableBooks_spec (sv : Server) :
    (displayAwaliableBooks sv).2 = sv ∧
    (((displayAwaliableBooks sv).1 = ⟨409, .message "No books are available"⟩ ∧
        ∀ b ∈ sv.store.books, ¬ b.BookQuantity > 0) ∨
     ((displayAwaliableBooks sv).1 =
          ⟨200, .books (sv.store.books.filter (fun b => decide (b.BookQuantity > 0)))⟩ ∧
        ∃ b ∈ sv.store.books, b.BookQuantity > 0)) ∧
    (∀ b, b ∈ sv.store.books.filter (fun b => decide (b.BookQuantity > 0)) ↔
        b ∈ sv.store.books ∧ b.BookQuantity > 0) ∧
    (displayAwaliableBooks freshServer).1 =
      ⟨200, .books [⟨1, "The Great Gatsby", 5⟩, ⟨2, "1984", 3⟩,
        ⟨3, "To Kill a Mockingbird", 7⟩, ⟨5, "Pride and Prejudice", 10⟩]⟩ := by
  have hfold : (GetAllAvailableBooks sv.store).foldl
      (fun (acc : Slice Book) book => if book.BookQuantity > 0 then acc.append book else acc)
      none = (sv.store.books.filter (fun b => decide (b.BookQuantity > 0))).foldl
        (fun (a : Slice Book) x => a.append x) none := by
    have h := foldl_append_if (fun b : Book => decide (b.BookQuantity > 0))
      (GetAllAvailableBooks sv.store) none
    simp only [decide_eq_true_eq] at h
    rw [h, GetAllAvailableBooks, List.filter_filter]
    simp
  refine ⟨?_, ?_, ?_, by decide⟩
  · unfold displayAwaliableBooks; simp only []; split <;> rfl
  · unfold displayAwaliableBooks
    simp only [hfold]
    cases hf : sv.store.books.filter (fun b => decide (b.BookQuantity > 0)) with
    | nil =>
      left
      refine ⟨by simp [Slice.len], ?_⟩
      intro b hb hq
      have : b ∈ sv.store.books.filter (fun b => decide (b.BookQuantity > 0)) :=
        List.mem_filter.2 ⟨hb, by simpa using hq⟩
      rw [hf] at this; simp at this
    | cons x xs =>
      right
      rw [foldl_append_none]
      refine ⟨by simp [Slice.len, encodeBooks], ?_⟩
      have hx : x ∈ sv.store.books.filter (fun b => decide (b.BookQuantity > 0)) := by
        rw [hf]; simp
      exact ⟨x, (List.mem_filter.1 hx).1, by simpa using (List.mem_filter.1 hx).2⟩
  · intro b; simp [List.mem_filter]

/-- C2: on a store that satisfies the schema and holds book `bk` with quantity at most
0, a Borrow request whose body decodes without error to the id of `bk` is answered 409
with the message "Book not available", and the store is left exactly as it was. -/
theorem borrowBook_unavailable (sv : Server) (body : Body BorrowField) (bk : Book)
    (hwf : sv.store.WF)
    (hdec : (decodeBorrowData sv.borrowData body).2 = false)
    (hid : (decodeBorrowData sv.borrowData body).1.BookID = bk.ID)
    (hmem : bk ∈ sv.store.books) (hq : bk.BookQuantity ≤ 0) :
    (borrowBook sv body).1 = ⟨409, .message "Book not available"⟩ ∧
    (borrowBook sv body).2.store = sv.store := by
  have hg := GetBookQuantity_of_mem sv.store bk hwf.1 hmem
  simp [borrowBook, hdec, hid, hg, hq]

/-- Witness of C2: book 4 of the seeded store has quantity 0. -/
theorem borrowBook_unavailable_witness :
    (borrowBook serverWithUser (borrowBody 1 4)).1 = ⟨409, .message "Book not available"⟩ ∧
    (borrowBook serverWithUser (borrowBody 1 4)).2.store = serverWithUser.store :=
  borrowBook_unavailable serverWithUser (borrowBody 1 4) ⟨4, "The Catcher in the Rye", 0⟩
    (by decide) (by decide) (by decide) (by decide) (by decide)

/-- C1: on a store that satisfies the schema and whose `borrowings` sequence is not
exhausted, if book `bk` has a positive quantity and user `u` exists, a Borrow request
whose body decodes without error to `u` and the id of `bk` is answered 200 with
`{"status": "book borrowed"}`; afterwards the users are unchanged, the row of `bk` has
its quantity lowered by one and every other row of `books` is unchanged, and
`borrowings` is the previous table followed by exactly one new row for the pair. -/
theorem borrowBook_available (sv : Server) (body : Body BorrowField) (bk : Book) (u : Int)
    (hwf : sv.store.WF)
    (hdec : (decodeBorrowData sv.borrowData body).2 = false)
    (hu : (decodeBorrowData sv.borrowData body).1.UserID = u)
    (hb : (decodeBorrowData sv.borrowData body).1.BookID = bk.ID)
    (hmem : bk ∈ sv.store.books) (hq : 0 < bk.BookQuantity)
    (huser : ∃ usr ∈ sv.store.users, usr.ID = u)
    (hseq : sv.store.borrowings_id_seq < int4Max) :
    (borrowBook sv body).1 = ⟨200, .status "book borrowed"⟩ ∧
    (borrowBook sv body).2.store.users = sv.store.users ∧
    (borrowBook sv body).2.store.books = sv.store.books.map
      (fun b => if b = bk then ⟨bk.ID, bk.BookName, bk.BookQuantity - 1⟩ else b) ∧
    GetBookQuantity (borrowBook sv body).2.store bk.ID = some (bk.BookQuantity - 1) ∧
    (borrowBook sv body).2.store.borrowings =
      sv.store.borrowings ++ [⟨sv.store.borrowings_id_seq + 1, u, bk.ID⟩] := by
  obtain ⟨hpk, hint, -, hids⟩ := hwf
  have hg := GetBookQuantity_of_mem sv.store bk hpk hmem
  have hins := BorrowBook_ok sv.store u bk.ID hids hseq huser ⟨bk, hmem, rfl⟩
  have hupd := updateBookQty_ok (-1) { sv.store with
      borrowings := sv.store.borrowings ++ [⟨sv.store.borrowings_id_seq + 1, u, bk.ID⟩],
      borrowings_id_seq := sv.store.borrowings_id_seq + 1 } bk.ID (by
        intro b hb e
        have hbe : b = bk := List.inj_on_of_nodup_map hpk hb hmem e
        subst hbe
        have := hint b hmem
        simp only [int4Min, int4Max] at this ⊢
        omega)
  have hmap := map_decrement_of_nodup sv.store.books bk (-1) hpk hmem
  have hnot : ¬ bk.BookQuantity ≤ 0 := by omega
  have hres : borrowBook sv body = (⟨200, .status "book borrowed"⟩,
      ⟨{ sv.store with
          books := sv.store.books.map
            (fun b => if b = bk then ⟨bk.ID, bk.BookName, bk.BookQuantity + -1⟩ else b),
          borrowings := sv.store.borrowings ++ [⟨sv.store.borrowings_id_seq + 1, u, bk.ID⟩],
          borrowings_id_seq := sv.store.borrowings_id_seq + 1 },
        (decodeBorrowData sv.borrowData body).1⟩) := by
    simp only [borrowBook, hdec, hu, hb, hg, hins, DecreaseBookQty, hupd, hmap, hnot]
    simp
  rw [hres]
  refine ⟨rfl, rfl, ?_, ?_, rfl⟩
  · simp only [Int.sub_eq_add_neg]
  · have hfind := find_after_update sv.store.books bk (-1) hpk hmem
    rw [hmap] at hfind
    simp [GetBookQuantity, hfind, Int.sub_eq_add_neg]

/-- Witness of C1: the registered user 1 borrows book 1 of the seeded store. -/
theorem borrowBook_available_witness :
    (borrowBook serverWithUser (borrowBody 1 1)).1 = ⟨200, .status "book borrowed"⟩ ∧
    (borrowBook serverWithUser (borrowBody 1 1)).2.store.users = serverWithUser.store.users ∧
    (borrowBook serverWithUser (borrowBody 1 1)).2.store.books = serverWithUser.store.books.map
      (fun b => if b = ⟨1, "The Great Gatsby", 5⟩ then ⟨1, "The Great Gatsby", 5 - 1⟩ else b) ∧
    GetBookQuantity (borrowBook serverWithUser (borrowBody 1 1)).2.store 1 = some (5 - 1) ∧
    (borrowBook serverWithUser (borrowBody 1 1)).2.store.borrowings =
      serverWithUser.store.borrowings ++ [⟨serverWithUser.store.borrowings_id_seq + 1, 1, 1⟩] :=
  borrowBook_available serverWithUser (borrowBody 1 1) ⟨1, "The Great Gatsby", 5⟩ 1
    (by decide) (by decide) (by decide) (by decide) (by decide) (by decide)
    ⟨⟨1, "Ada", "Lovelace"⟩, by decide, rfl⟩ (by decide)

/-- C8 (counterexample): the payloads `{"first_name": <51 letters>, "last_name": "Doe"}`
and `{"first_name": <NUL>, "last_name": "Doe"}` decode without error, yet Add-User
answers 500 (the column is `VARCHAR(50)`; NUL is not valid text) and stores no user.
With a first name of 50 letters and a trailing space the answer is 201 and echoes the 51
characters, but the row that is stored carries the name cut to 50 characters. -/
theorem addUser_rejects_valid_payload :
    decodeUser ⟨0, "", ""⟩ (userBody longName "Doe") = (⟨0, longName, "Doe"⟩, false) ∧
    addUser freshServer (userBody longName "Doe") =
      (⟨500, .errorText (.storage .valueTooLong)⟩, freshServer) ∧
    decodeUser ⟨0, "", ""⟩ (userBody nulName "Doe") = (⟨0, nulName, "Doe"⟩, false) ∧
    addUser freshServer (userBody nulName "Doe") =
      (⟨500, .errorText (.storage .invalidByteSequence)⟩, freshServer) ∧
    (addUser freshServer (userBody paddedName "Doe")).1 =
      ⟨201, .user ⟨1, paddedName, "Doe"⟩⟩ ∧
    (addUser freshServer (userBody paddedName "Doe")).2.store.users =
      [⟨1, ⟨List.replicate 50 'a'⟩, "Doe"⟩] ∧
    (⟨1, paddedName, "Doe"⟩ : User) ∉
      (addUser freshServer (userBody paddedName "Doe")).2.store.users := by
  refine ⟨by decide, by decide, by decide, by decide, by decide, by decide, by decide⟩

/-- C8 (amended): on a store that satisfies the schema and whose `users` sequence is
not exhausted, for every body that decodes without error to names `f` and `l` of at
most 50 characters each and without a NUL character, Add-User answers 201 with a User
that carries `f` and `l` unchanged and an id borne by no user already stored; afterwards
`users` is the previous table followed by exactly that user, and books, borrowings and
`BorrowData` are unchanged. -/
theorem addUser_created (sv : Server) (body : Body UserField) (i0 : Int) (f l : String)
    (hwf : sv.store.WF)
    (hdec : decodeUser ⟨0, "", ""⟩ body = (⟨i0, f, l⟩, false))
    (hf : f.length ≤ 50) (hf0 : Char.ofNat 0 ∉ f.data)
    (hl : l.length ≤ 50) (hl0 : Char.ofNat 0 ∉ l.data)
    (hseq : sv.store.users_id_seq < int4Max) :
    ∃ id : Int,
      (addUser sv body).1 = ⟨201, .user ⟨id, f, l⟩⟩ ∧
      (∀ u ∈ sv.store.users, u.ID ≠ id) ∧
      (addUser sv body).2.store.users = sv.store.users ++ [⟨id, f, l⟩] ∧
      (addUser sv body).2.store.books = sv.store.books ∧
      (addUser sv body).2.store.borrowings = sv.store.borrowings ∧
      (addUser sv body).2.borrowData = sv.borrowData := by
  obtain ⟨-, -, hids, -⟩ := hwf
  have hok := AddUser_ok sv.store f l hf hf0 hl hl0 hids hseq
  refine ⟨sv.store.users_id_seq + 1, ?_, ?_, ?_, ?_, ?_, ?_⟩
  · simp [addUser, hdec, hok]
  · intro u hu e
    have := hids u hu
    omega
  all_goals simp [addUser, hdec, hok]

/-- Witness of C8 (amended): `Grace Hopper` registers after `Ada Lovelace`. -/
theorem addUser_created_witness :
    ∃ id : Int,
      (addUser serverWithUser (userBody "Grace" "Hopper")).1 =
        ⟨201, .user ⟨id, "Grace", "Hopper"⟩⟩ ∧
      (∀ u ∈ serverWithUser.store.users, u.ID ≠ id) ∧
      (addUser serverWithUser (userBody "Grace" "Hopper")).2.store.users =
        serverWithUser.store.users ++ [⟨id, "Grace", "Hopper"⟩] ∧
      (addUser serverWithUser (userBody "Grace" "Hopper")).2.store.books =
        serverWithUser.store.books ∧
      (addUser serverWithUser (userBody "Grace" "Hopper")).2.store.borrowings =
        serverWithUser.store.borrowings ∧
      (addUser serverWithUser (userBody "Grace" "Hopper")).2.borrowData =
        serverWithUser.borrowData :=
  addUser_created serverWithUser (userBody "Grace" "Hopper") 0 "Grace" "Hopper"
    (by decide) (by decide) (by decide) (by decide) (by decide) (by decide) (by decide)

/-- C7 (counterexample): the Borrow body `{"user_id": 1, "book_id": "x"}` fails to
decode and is answered 400, yet it leaves `BorrowData.UserID = 1` behind: the server is
no longer the one before, and the next request `{"book_id": 1}`, which is answered 500
on the server before, is answered 200 and borrows book 1 for user 1 on the server
after. -/
theorem failed_decode_alters_BorrowData :
    (decodeBorrowData serverWithUser.borrowData illTypedBody).2 = true ∧
    (borrowBook serverWithUser illTypedBody).1 = ⟨400, .errorText .decode⟩ ∧
    (borrowBook serverWithUser illTypedBody).2 ≠ serverWithUser ∧
    (borrowBook serverWithUser bookOnlyBody).1.status = 500 ∧
    (borrowBook (borrowBook serverWithUser illTypedBody).2 bookOnlyBody).1 =
      ⟨200, .status "book borrowed"⟩ ∧
    (borrowBook (borrowBook serverWithUser illTypedBody).2 bookOnlyBody).2.store.borrowings =
      [⟨1, 1, 1⟩] := by
  refine ⟨by decide, by decide, by decide, by decide, by decide, by decide⟩

/-- C7 (amended): for every body that fails to decode, Add-User, Borrow and Return
answer 400 and leave the store (users, books, borrowings, sequences) as it was; Add-User
leaves the whole server as it was, and so do Borrow and Return when the body is not a
JSON object.  (A JSON object with an ill-typed member may still overwrite the other
field of the shared `BorrowData`.) -/
theorem malformed_body_is_400 (sv : Server) (ub : Body UserField) (bb : Body BorrowField)
    (hu : (decodeUser ⟨0, "", ""⟩ ub).2 = true)
    (hb : (decodeBorrowData sv.borrowData bb).2 = true) :
    addUser sv ub = (⟨400, .errorText .decode⟩, sv) ∧
    (borrowBook sv bb).1 = ⟨400, .errorText .decode⟩ ∧
    (borrowBook sv bb).2.store = sv.store ∧
    (returnBook sv bb).1 = ⟨400, .errorText .decode⟩ ∧
    (returnBook sv bb).2.store = sv.store ∧
    ((∀ members, bb ≠ .object members) →
      (borrowBook sv bb).2 = sv ∧ (returnBook sv bb).2 = sv) := by
  refine ⟨by simp [addUser, hu], by simp [borrowBook, hb], by simp [borrowBook, hb],
    by simp [returnBook, hb], by simp [returnBook, hb], ?_⟩
  intro hobj
  cases bb with
  | invalid => exact ⟨by simp [borrowBook, decodeBorrowData], by simp [returnBook, decodeBorrowData]⟩
  | null => simp [decodeBorrowData] at hb
  | nonObject =>
    exact ⟨by simp [borrowBook, decodeBorrowData], by simp [returnBook, decodeBorrowData]⟩
  | object members => exact absurd rfl (hobj members)

/-- Witness of C7 (amended): an empty body for Add-User and a top-level array for Borrow
and Return. -/
theorem malformed_body_is_400_witness :
    addUser serverWithUser .invalid = (⟨400, .errorText .decode⟩, serverWithUser) ∧
    (borrowBook serverWithUser .nonObject).1 = ⟨400, .errorText .decode⟩ ∧
    (borrowBook serverWithUser .nonObject).2.store = serverWithUser.store ∧
    (returnBook serverWithUser .nonObject).1 = ⟨400, .errorText .decode⟩ ∧
    (returnBook serverWithUser .nonObject).2.store = serverWithUser.store ∧
    ((∀ members, (Body.nonObject : Body BorrowField) ≠ .object members) →
      (borrowBook serverWithUser .nonObject).2 = serverWithUser ∧
      (returnBook serverWithUser .nonObject).2 = serverWithUser) :=
  malformed_body_is_400 serverWithUser .invalid .nonObject (by decide) (by decide)

/-- C10: Borrow and Return decode into the one `BorrowData` of the server and leave it
holding what the decoder produced.  For every JSON object body that has no member for
field `f` (`user_id` or `book_id`), decoding leaves `f` at the value the variable held
before the request, and each handler does exactly what it does for the same body with
that earlier value written out as member `f`.  So the response to a request is not
determined by its body and the store: two servers with the same store answer the same
body differently. -/
theorem omitted_field_keeps_earlier_value (sv : Server) (f : BorrowField)
    (members : List (Option BorrowField × JVal))
    (homit : ∀ m ∈ members, m.1 ≠ some f)
    (hrange : -9223372036854775808 ≤ sv.borrowData.get f ∧
      sv.borrowData.get f ≤ 9223372036854775807) :
    (decodeBorrowData sv.borrowData (.object members)).1.get f = sv.borrowData.get f ∧
    borrowBook sv (.object members) =
      borrowBook sv (.object (members ++ [(some f, .int (sv.borrowData.get f))])) ∧
    returnBook sv (.object members) =
      returnBook sv (.object (members ++ [(some f, .int (sv.borrowData.get f))])) ∧
    (∀ prev : Body BorrowField,
      (borrowBook sv prev).2.borrowData = (decodeBorrowData sv.borrowData prev).1 ∧
      (returnBook sv prev).2.borrowData = (decodeBorrowData sv.borrowData prev).1) ∧
    (∃ sv1 sv2 : Server, ∃ body : Body BorrowField,
      sv1.store = sv2.store ∧ (borrowBook sv1 body).1 ≠ (borrowBook sv2 body).1) := by
  have happ := decodeBorrowData_append_same sv.borrowData f members homit hrange
  refine ⟨foldl_setMember_get f members (sv.borrowData, false) homit, ?_, ?_, ?_, ?_⟩
  · simp only [borrowBook, happ]
  · simp only [returnBook, happ]
  · intro prev
    constructor
    · unfold borrowBook
      simp only []
      repeat' split
      all_goals rfl
    · unfold returnBook
      simp only []
      repeat' split
      all_goals rfl
  · exact ⟨serverWithUser, ⟨serverWithUser.store, ⟨1, 0⟩⟩, bookOnlyBody, rfl, by decide⟩

/-- Witness of C10: after user 1 borrowed book 2, the body `{"user_id": 1}` borrows
book 2 again. -/
theorem omitted_field_keeps_earlier_value_witness :
    (decodeBorrowData (borrowBook serverWithUser (borrowBody 1 2)).2.borrowData
      (.object [(some .user_id, .int 1)])).1.get .book_id = 2 ∧
    (borrowBook (borrowBook serverWithUser (borrowBody 1 2)).2
      (.object [(some .user_id, .int 1)])).2.store.borrowings = [⟨1, 1, 2⟩, ⟨2, 1, 2⟩] := by
  have h := omitted_field_keeps_earlier_value (borrowBook serverWithUser (borrowBody 1 2)).2
    .book_id [(some .user_id, .int 1)] (by decide) (by decide)
  refine ⟨h.1.trans (by decide), ?_⟩
  rw [h.2.1]
  decide

/-- C5: in every state reached from the freshly seeded server (no borrowings) by any
sequence of the five requests handled one at a time, `books` holds the seeded rows with
each quantity equal to the seeded quantity minus the number of `borrowings` rows that
reference the book, and every quantity is at least 0. -/
theorem quantity_invariant (reqs : List Request) :
    freshServer.store.borrowings = [] ∧
    (run freshServer reqs).store.books = freshServer.store.books.map
      (fun sb => ⟨sb.ID, sb.BookName,
        sb.BookQuantity - openBorrowings (run freshServer reqs).store sb.ID⟩) ∧
    ∀ b ∈ (run freshServer reqs).store.books, 0 ≤ b.BookQuantity := by
  have h0 : QuantityInv freshServer.store := by
    unfold QuantityInv
    exact ⟨by decide, by decide⟩
  exact ⟨rfl, run_preserves reqs freshServer h0⟩

end Library
